import Mathlib

/-!
Shallow embedding of the adaptive scheduling and points engine of the
commonplace-book daily-planning app: the points calculator
(`calcTaskPoints`), the task scorer (`scoreTask`), the variant selector
(`pickVariant`), the day-plan builder (`buildDayPlan`) and the learning
updater (`applyReview`, the per-record body of `submitReview`).

Modelling conventions:
- JavaScript numbers are embedded as rationals (`ℚ`); the magnitudes used by
  the program (minutes, energies, scores) are far below any double-precision
  rounding threshold, and all constants appearing in the source (`0.1`,
  `2.5`, `2.33`, ...) are taken at their exact decimal value.
- `Math.round x` is `⌊x + 1/2⌋` (JavaScript rounds half-ups toward +∞),
  `Math.ceil` is `⌈·⌉`, `Math.max`/`Math.min` are `max`/`min`.
- Dates (`new Date(...)`) are embedded as milliseconds-since-epoch
  rationals together with a weekday index (`getDay()`), which is all the
  arithmetic the source performs on them.
- JavaScript objects used as string-keyed maps become functions
  `String → Option _`; an absent key is `none`.  Falsiness of `0`,
  `null` and `undefined` is made explicit at each use site.
- `Array.prototype.sort` with the comparators used here (`a.x - b.x`) is a
  stable sort by a total preorder; for such a comparator the stable-sorted
  result is unique, so the stable, structurally recursive
  `List.insertionSort` is an exact model of it.
-/

attribute [local semireducible] Rat.add Rat.mul Rat.sub Rat.inv Rat.ofScientific

namespace Planner

/-- JavaScript `Math.round`: half-up, toward plus infinity, i.e.
`⌊q + 1/2⌋` (stated via the executable `Rat.floor`). -/
def jsRound (q : ℚ) : ℤ := (q + 1/2).floor

/-- Source: `{ name, duration_minutes, energy_required }` variant records. -/
structure Variant where
  name : String
  duration_minutes : ℚ
  energy_required : ℚ
deriving DecidableEq

/-- Source: task records as produced by the sample list / batch importer. -/
structure Task where
  id : String
  name : String
  mandatory : Bool
  critical : Bool
  category : String
  energy_required : ℚ
  duration_minutes : ℚ
  frequency : Option String
  deadline : Option ℚ
  time_of_day : String
  days_available : List String
  variants : List Variant
  subtasks : List String
  blockers : List String
deriving DecidableEq

/-- Source: the morning check-in `{ sleep, hours, energy }`. -/
structure Morning where
  sleep : String
  hours : ℚ
  energy : ℚ
deriving DecidableEq

/-- Source: a learned-history record `{ count, avg_duration, avg_energy,
last_done, completed_today }`; `last_done` is a date in epoch milliseconds. -/
structure LearnedRec where
  count : ℕ
  avg_duration : ℚ
  avg_energy : ℚ
  last_done : Option ℚ
  completed_today : Bool
deriving DecidableEq

/-- The learned-history store: a string-keyed map, absent key is `none`. -/
abbrev Learned := String → Option LearnedRec

/-- A date value: epoch milliseconds plus the `getDay()` weekday index. -/
structure JsDate where
  ms : ℚ
  dayIdx : ℕ
deriving DecidableEq

/-- Source: `SLEEP_SCORES = { terrible: 1, poor: 3, ok: 5, good: 7, great: 9 }`. -/
def SLEEP_SCORES (s : String) : Option ℚ :=
  if s = "terrible" then some 1
  else if s = "poor" then some 3
  else if s = "ok" then some 5
  else if s = "good" then some 7
  else if s = "great" then some 9
  else none

/-- Source: `SLEEP_SCORES[sleep] || 5` (every stored score is truthy). -/
def sleepScoreOf (s : String) : ℚ := (SLEEP_SCORES s).getD 5

/-- Source: `FREQ_DAYS` lookup table (all values are truthy). -/
def FREQ_DAYS (f : String) : Option ℚ :=
  if f = "daily" then some 1
  else if f = "2x_daily" then some 0.5
  else if f = "3x_weekly" then some 2.33
  else if f = "weekly" then some 7
  else if f = "2x_weekly" then some 3.5
  else if f = "biweekly" then some 14
  else if f = "monthly" then some 30
  else if f = "once" then some 9999
  else none

/-- Source: `BASE_POINTS_MIN = 1`. -/
def BASE_POINTS_MIN : ℚ := 1

/-- Source: `getLowEnergyMultiplier`: `LOW_ENERGY_SCALE[morningEnergy] || 1.0`
with `LOW_ENERGY_SCALE = { 1: 3.0, 2: 2.5, 3: 2.0, 4: 1.5 }` (numeric object
keys; a non-integral energy misses the table and yields `1.0`). -/
def getLowEnergyMultiplier (morningEnergy : ℚ) : ℚ :=
  if morningEnergy = 1 then 3
  else if morningEnergy = 2 then 2.5
  else if morningEnergy = 3 then 2
  else if morningEnergy = 4 then 1.5
  else 1

/-- Result shape of `calcTaskPoints`. -/
structure PointsResult where
  base : ℚ
  pts : ℚ
  lowEnergyBonus : Bool
  multiplier : ℚ
deriving DecidableEq

/-- Source: `calcTaskPoints(task, morningEnergy)`. -/
def calcTaskPoints (task : Task) (morningEnergy : ℚ) : PointsResult :=
  let base : ℚ :=
    max BASE_POINTS_MIN (jsRound (task.energy_required * task.duration_minutes / 10) : ℚ)
  let multiplier := getLowEnergyMultiplier morningEnergy
  let lowEnergyBonus : Bool := multiplier > 1
  let pts : ℚ := if lowEnergyBonus then (jsRound (base * multiplier) : ℚ) else base
  { base := base, pts := pts, lowEnergyBonus := lowEnergyBonus, multiplier := multiplier }

/-- Output shape of `scoreTask`: the task spread together with the scoring
fields.  For a blocked task the source leaves `urgency`, `criticality`,
`energyFit` and `overduePts` undefined (they are never read for blocked
records, which are filtered out before any use of those fields); the
embedding stores `0` there. -/
structure ScoredTask where
  task : Task
  score : ℚ
  urgency : ℚ
  criticality : ℚ
  energyFit : ℚ
  overduePts : ℚ
  effectiveDuration : ℚ
  effectiveEnergy : ℚ
  blocked : Bool
deriving DecidableEq

/-- JavaScript `v || d` for an optionally-present numeric field: `undefined`
and `0` are falsy, any other number is returned unchanged. -/
def jsOrQ (v : Option ℚ) (d : ℚ) : ℚ :=
  match v with
  | some x => if x = 0 then d else x
  | none => d

/-- Source: `["sun","mon","tue","wed","thu","fri","sat"][today.getDay()]`. -/
def dayNameOf (today : JsDate) : String :=
  ["sun", "mon", "tue", "wed", "thu", "fri", "sat"].getD today.dayIdx ""

/-- Source: `learned.avg_duration || task.duration_minutes` where
`learned = learnedData[task.id] || {}`. -/
def effDurOf (l : Learned) (t : Task) : ℚ :=
  jsOrQ ((l t.id).map (·.avg_duration)) t.duration_minutes

/-- Source: `learned.avg_energy || task.energy_required`. -/
def effEnergyOf (l : Learned) (t : Task) : ℚ :=
  jsOrQ ((l t.id).map (·.avg_energy)) t.energy_required

/-- Source: the urgency banding over
`daysLeft = Math.ceil((deadline - today) / 86400000)`. -/
def urgencyOf (t : Task) (today : JsDate) : ℚ :=
  match t.deadline with
  | none => 0
  | some d =>
    let daysLeft : ℤ := ((d - today.ms) / 86400000).ceil
    if daysLeft ≤ 0 then 30
    else if daysLeft ≤ 1 then 28
    else if daysLeft ≤ 3 then 22
    else if daysLeft ≤ 7 then 16
    else if daysLeft ≤ 14 then 10
    else if daysLeft ≤ 30 then 5
    else 1

/-- Source: the overdue bonus, guarded by
`learned.last_done && task.frequency && FREQ_DAYS[task.frequency]`
(every `FREQ_DAYS` value is truthy, so the option model is exact). -/
def overduePtsOf (l : Learned) (t : Task) (today : JsDate) : ℚ :=
  match ((l t.id).bind (·.last_done)), (t.frequency.bind FREQ_DAYS) with
  | some lastDone, some expected =>
    let daysSince := (today.ms - lastDone) / 86400000
    if daysSince > expected then min 15 (((daysSince - expected) / expected) * 15) else 0
  | _, _ => 0

/-- Source: `task.days_available?.length && !task.days_available.includes(dayName)`. -/
def daysExcluded (t : Task) (today : JsDate) : Bool :=
  !t.days_available.isEmpty && !(t.days_available.contains (dayNameOf today))

/-- Source: `task.blockers?.length && task.blockers.some(b => !learnedData[b]?.completed_today)`. -/
def blockedChk (l : Learned) (t : Task) : Bool :=
  !t.blockers.isEmpty && t.blockers.any (fun b => !(((l b).map (·.completed_today)).getD false))

/-- The non-blocked record returned by `scoreTask`. -/
def mkScored (t : Task) (m : Morning) (l : Learned) (today : JsDate) : ScoredTask :=
  let sleepScore := sleepScoreOf m.sleep
  let urgency := urgencyOf t today
  let criticality : ℚ := if t.mandatory then 25 else if t.critical then 15 else 0
  let sleepMultiplier := 1 + (5 - sleepScore) * 0.1
  let energyDiff := |m.energy - effEnergyOf l t|
  let energyFit := max 0 (20 - energyDiff * 2.5) * sleepMultiplier
  let overduePts := overduePtsOf l t today
  { task := t
    score := urgency + criticality + energyFit + overduePts
    urgency := urgency
    criticality := criticality
    energyFit := energyFit
    overduePts := overduePts
    effectiveDuration := effDurOf l t
    effectiveEnergy := effEnergyOf l t
    blocked := false }

/-- Source: `scoreTask(task, morningData, learnedData, today)`. -/
def scoreTask (t : Task) (m : Morning) (l : Learned) (today : JsDate) : Option ScoredTask :=
  if daysExcluded t today then none
  else if blockedChk l t then
    some { task := t, score := 0, urgency := 0, criticality := 0, energyFit := 0,
           overduePts := 0, effectiveDuration := effDurOf l t,
           effectiveEnergy := effEnergyOf l t, blocked := true }
  else some (mkScored t m l today)

/-- Ascending-duration order used by `sort((a, b) => a.duration_minutes - b.duration_minutes)`. -/
def byDur (a b : Variant) : Prop := a.duration_minutes ≤ b.duration_minutes

instance : DecidableRel byDur :=
  fun a b => inferInstanceAs (Decidable (a.duration_minutes ≤ b.duration_minutes))

instance : IsTotal Variant byDur := ⟨fun a b => le_total a.duration_minutes b.duration_minutes⟩

instance : IsTrans Variant byDur := ⟨fun _ _ _ => le_trans⟩

/-- Source: `pickVariant(task, energy, sleep, timeRemaining, timePressure)`. -/
def pickVariant (t : Task) (energy : ℚ) (sleep : String) (timeRemaining : ℚ)
    (timePressure : Bool) : Option Variant :=
  if t.variants.isEmpty then none
  else
    let sleepScore := sleepScoreOf sleep
    let effectiveEnergy := (energy + sleepScore / 2) / 1.5
    let sorted := List.insertionSort byDur t.variants
    if timePressure then
      match sorted.filter (fun v => v.duration_minutes ≤ timeRemaining) with
      | [] => sorted.head?
      | v :: _ => some v
    else
      match sorted.filter (fun v => v.duration_minutes ≤ timeRemaining) with
      | [] => sorted.head?
      | v :: vs =>
        if effectiveEnergy < 3.5 then some v
        else
          some ((v :: vs).foldl
            (fun best w =>
              if |w.energy_required - effectiveEnergy| < |best.energy_required - effectiveEnergy|
              then w else best) v)

/-- A plan entry: the scored task spread together with the scheduling
fields.  The source sets `pinned` only on mandatory entries and
`compressed` only on critical/normal entries; an absent field is falsy, so
the embedding stores `false` where the source leaves it undefined. -/
structure PlanItem where
  scored : ScoredTask
  scheduledDuration : ℚ
  displayName : String
  variant : Option Variant
  pinned : Bool
  compressed : Bool
deriving DecidableEq

/-- Alert templates pushed by `buildDayPlan`, by message, with the numbers
interpolated into the message carried as arguments. -/
inductive Alert where
  | timeTight : Alert
  | shortfall (mins : ℤ) (needHours remainHours : ℚ) : Alert
  | overduePromoted : Alert
  | lowEnergy : Alert
deriving DecidableEq

/-- The `type` field of each pushed alert (source lines 217, 220, 244, 245). -/
def severityOf : Alert → String
  | Alert.timeTight => "warning"
  | Alert.shortfall _ _ _ => "error"
  | Alert.overduePromoted => "warning"
  | Alert.lowEnergy => "info"

/-- Result shape of `buildDayPlan`. -/
structure PlanResult where
  plan : List PlanItem
  alerts : List Alert
  minutesUsed : ℚ
  availableMinutes : ℚ
  blocked : List Task
deriving DecidableEq

/-- Source: `` variant ? `${task.name} — ${variant.name}` : task.name ``. -/
def displayNameOf (t : Task) : Option Variant → String
  | some v => t.name ++ " — " ++ v.name
  | none => t.name

/-- Source: `variant ? variant.duration_minutes : task.effectiveDuration`. -/
def durationOf (s : ScoredTask) : Option Variant → ℚ
  | some v => v.duration_minutes
  | none => s.effectiveDuration

/-- Descending-score order used by `sort((a, b) => b.score - a.score)`. -/
def byScore (a b : ScoredTask) : Prop := b.score ≤ a.score

instance : DecidableRel byScore :=
  fun a b => inferInstanceAs (Decidable (b.score ≤ a.score))

instance : IsTotal ScoredTask byScore := ⟨fun a b => le_total b.score a.score⟩

instance : IsTrans ScoredTask byScore := ⟨fun _ _ _ h h' => le_trans h' h⟩

/-- Source: `tasks.map(scoreTask).filter(Boolean).filter(t => !t.blocked)`. -/
def scoredTasks (tasks : List Task) (m : Morning) (l : Learned) (today : JsDate) :
    List ScoredTask :=
  (tasks.filterMap (fun t => scoreTask t m l today)).filter (fun s => !s.blocked)

/-- Source: `scored.filter(t => t.mandatory).sort((a,b) => b.score - a.score)`. -/
def mandatoryTier (tasks : List Task) (m : Morning) (l : Learned) (today : JsDate) :
    List ScoredTask :=
  List.insertionSort byScore ((scoredTasks tasks m l today).filter (fun s => s.task.mandatory))

/-- Source: `scored.filter(t => !t.mandatory && t.critical).sort(...)`. -/
def criticalTier (tasks : List Task) (m : Morning) (l : Learned) (today : JsDate) :
    List ScoredTask :=
  List.insertionSort byScore
    ((scoredTasks tasks m l today).filter (fun s => !s.task.mandatory && s.task.critical))

/-- Source: `scored.filter(t => !t.mandatory && !t.critical).sort(...)`. -/
def normalTier (tasks : List Task) (m : Morning) (l : Learned) (today : JsDate) :
    List ScoredTask :=
  List.insertionSort byScore
    ((scoredTasks tasks m l today).filter (fun s => !s.task.mandatory && !s.task.critical))

/-- Source: `tasks.filter(t => { const s = scoreTask(...); return s?.blocked; })`. -/
def blockedOf (tasks : List Task) (m : Morning) (l : Learned) (today : JsDate) : List Task :=
  tasks.filter (fun t =>
    match scoreTask t m l today with
    | some s => s.blocked
    | none => false)

/-- Source: the mandatory loop — every task is admitted unconditionally,
flagged `pinned`, and `minutesUsed` accumulates. -/
def mandatoryPass (m : Morning) (avail : ℚ) : List ScoredTask → ℚ → List PlanItem × ℚ
  | [], used => ([], used)
  | s :: rest, used =>
    let variant := pickVariant s.task m.energy m.sleep (avail - used) false
    let duration := durationOf s variant
    let r := mandatoryPass m avail rest (used + duration)
    ({ scored := s, scheduledDuration := duration, displayName := displayNameOf s.task variant,
       variant := variant, pinned := true, compressed := false } :: r.1, r.2)

/-- Source: the critical loop — admit only when
`minutesUsed + duration <= availableMinutes + 15`. -/
def criticalPass (m : Morning) (avail : ℚ) (tp : Bool) :
    List ScoredTask → ℚ → List PlanItem × ℚ
  | [], used => ([], used)
  | s :: rest, used =>
    let variant := pickVariant s.task m.energy m.sleep (avail - used) tp
    let duration := durationOf s variant
    if used + duration ≤ avail + 15 then
      let r := criticalPass m avail tp rest (used + duration)
      ({ scored := s, scheduledDuration := duration, displayName := displayNameOf s.task variant,
         variant := variant, pinned := false, compressed := tp && variant.isSome } :: r.1, r.2)
    else criticalPass m avail tp rest used

/-- Source: the normal loop — `break` once `minutesUsed >= availableMinutes`,
local pressure above 90% utilization, admit only within the exact budget. -/
def normalPass (m : Morning) (avail : ℚ) : List ScoredTask → ℚ → List PlanItem × ℚ
  | [], used => ([], used)
  | s :: rest, used =>
    if avail ≤ used then ([], used)
    else
      let normalPressure : Bool := used / avail > 0.9
      let variant := pickVariant s.task m.energy m.sleep (avail - used) normalPressure
      let duration := durationOf s variant
      if used + duration ≤ avail then
        let r := normalPass m avail rest (used + duration)
        ({ scored := s, scheduledDuration := duration,
           displayName := displayNameOf s.task variant, variant := variant,
           pinned := false, compressed := normalPressure && variant.isSome } :: r.1, r.2)
      else normalPass m avail rest used

/-- Source: `availableMinutes = morningData.hours * 60`. -/
def availMinutes (m : Morning) : ℚ := m.hours * 60

/-- Minutes used by the mandatory pass, starting from `0`. -/
def usedAfterMandatory (tasks : List Task) (m : Morning) (l : Learned) (today : JsDate) : ℚ :=
  (mandatoryPass m (availMinutes m) (mandatoryTier tasks m l today) 0).2

/-- Source: `critMinsNormal = critical.reduce((s,t) => s + t.effectiveDuration, 0)`. -/
def critNormalSum (tasks : List Task) (m : Morning) (l : Learned) (today : JsDate) : ℚ :=
  (criticalTier tasks m l today).foldl (fun s t => s + t.effectiveDuration) 0

/-- Source: the compressed reduction —
`!t.variants?.length ? s + t.effectiveDuration
 : s + Math.min(t.effectiveDuration, Math.min(...t.variants.map(v => v.duration_minutes)))`. -/
def compressedDur (s : ScoredTask) : ℚ :=
  match s.task.variants.map (·.duration_minutes) with
  | [] => s.effectiveDuration
  | d :: ds => min s.effectiveDuration (ds.foldl min d)

/-- Source: `critMinsCompressed = critical.reduce(..., 0)`. -/
def critCompSum (tasks : List Task) (m : Morning) (l : Learned) (today : JsDate) : ℚ :=
  (criticalTier tasks m l today).foldl (fun s t => s + compressedDur t) 0

/-- Source: `remainingForCritical = availableMinutes - minutesUsed` after the
mandatory loop. -/
def remainingForCritical (tasks : List Task) (m : Morning) (l : Learned) (today : JsDate) : ℚ :=
  availMinutes m - usedAfterMandatory tasks m l today

/-- Source: `timePressure = critMinsNormal > remainingForCritical`. -/
def timePressureOf (tasks : List Task) (m : Morning) (l : Learned) (today : JsDate) : Bool :=
  critNormalSum tasks m l today > remainingForCritical tasks m l today

/-- The alerts pushed by the critical two-pass check (source lines 215-222). -/
def critAlertsOf (tasks : List Task) (m : Morning) (l : Learned) (today : JsDate) :
    List Alert :=
  let rem := remainingForCritical tasks m l today
  let cn := critNormalSum tasks m l today
  let cc := critCompSum tasks m l today
  if cn > rem then
    if cc ≤ rem then [Alert.timeTight]
    else
      [Alert.shortfall (jsRound (cc - rem))
        ((jsRound (cc / 60 * 10) : ℚ) / 10)
        ((jsRound (rem / 60 * 10) : ℚ) / 10)]
  else []

/-- Source: the overdue alert (line 244), pushed when
`scored.filter(t => t.overduePts > 10).length` is truthy. -/
def overdueAlertsOf (tasks : List Task) (m : Morning) (l : Learned) (today : JsDate) :
    List Alert :=
  if ((scoredTasks tasks m l today).filter (fun s => s.overduePts > 10)).isEmpty then []
  else [Alert.overduePromoted]

/-- Source: the low-energy alert (line 245), pushed when
`morningData.energy <= 3 || morningData.sleep === "terrible"`. -/
def lowAlertsOf (m : Morning) : List Alert :=
  if m.energy ≤ 3 ∨ m.sleep = "terrible" then [Alert.lowEnergy] else []

/-- The plan entries produced by the mandatory loop. -/
def mandatoryItems (tasks : List Task) (m : Morning) (l : Learned) (today : JsDate) :
    List PlanItem :=
  (mandatoryPass m (availMinutes m) (mandatoryTier tasks m l today) 0).1

/-- The plan entries produced by the critical loop. -/
def criticalItems (tasks : List Task) (m : Morning) (l : Learned) (today : JsDate) :
    List PlanItem :=
  (criticalPass m (availMinutes m) (timePressureOf tasks m l today)
    (criticalTier tasks m l today) (usedAfterMandatory tasks m l today)).1

/-- `minutesUsed` after the critical loop. -/
def usedAfterCritical (tasks : List Task) (m : Morning) (l : Learned) (today : JsDate) : ℚ :=
  (criticalPass m (availMinutes m) (timePressureOf tasks m l today)
    (criticalTier tasks m l today) (usedAfterMandatory tasks m l today)).2

/-- The plan entries produced by the normal loop. -/
def normalItems (tasks : List Task) (m : Morning) (l : Learned) (today : JsDate) :
    List PlanItem :=
  (normalPass m (availMinutes m) (normalTier tasks m l today)
    (usedAfterCritical tasks m l today)).1

/-- `minutesUsed` after all three loops. -/
def minutesUsedOf (tasks : List Task) (m : Morning) (l : Learned) (today : JsDate) : ℚ :=
  (normalPass m (availMinutes m) (normalTier tasks m l today)
    (usedAfterCritical tasks m l today)).2

/-- Source: `buildDayPlan(tasks, morningData, learnedData)`; the internal
`new Date()` is supplied by the caller, as the spec's concurrency section
requires for testability.  The source's sequential `let`s are lifted into
the named component definitions above. -/
def buildDayPlan (tasks : List Task) (m : Morning) (l : Learned) (today : JsDate) :
    PlanResult :=
  { plan := mandatoryItems tasks m l today ++ criticalItems tasks m l today ++
      normalItems tasks m l today
    alerts := critAlertsOf tasks m l today ++ overdueAlertsOf tasks m l today ++ lowAlertsOf m
    minutesUsed := minutesUsedOf tasks m l today
    availableMinutes := availMinutes m
    blocked := blockedOf tasks m l today }

/-- Sum of `scheduledDuration` over a list of plan entries. -/
def sumDur (items : List PlanItem) : ℚ := (items.map (·.scheduledDuration)).sum

/-- Source: `newLearned[id] || { count: 0, avg_duration: 0, avg_energy: 0 }`. -/
def prevOf (o : Option LearnedRec) : LearnedRec :=
  o.getD { count := 0, avg_duration := 0, avg_energy := 0, last_done := none,
           completed_today := false }

/-- Source: the per-record body of `submitReview`.  The caller computes
`actualMin = parseInt(actualTimes[id]) || null` (and the float analogue for
energy), so an unparsable or zero input is `null`; here `none` plays the
role of `null` and a supplied `some 0` is likewise falsy, mirroring the
`actualMin ? ... : ...` conditionals.  `completedDate` is the completion
date (the source stores today's date string). -/
def applyReview (prev : Option LearnedRec) (actualMin : Option ℤ) (actualEng : Option ℚ)
    (completedDate : ℚ) : LearnedRec :=
  let p := prevOf prev
  let count := p.count + 1
  { count := count
    last_done := some completedDate
    completed_today := true
    avg_duration :=
      match actualMin with
      | some a =>
        if a = 0 then p.avg_duration
        else (jsRound ((p.avg_duration * (count - 1 : ℕ) + a) / count) : ℚ)
      | none => p.avg_duration
    avg_energy :=
      match actualEng with
      | some aE =>
        if aE = 0 then p.avg_energy
        else (jsRound ((p.avg_energy * (count - 1 : ℕ) + aE) / count * 10) : ℚ) / 10
      | none => p.avg_energy }

/-- Recognizer for the time-tight warning alert. -/
def isTimeTight : Alert → Bool
  | Alert.timeTight => true
  | _ => false

/-- Recognizer for the critical-shortfall error alert. -/
def isShortfallAlert : Alert → Bool
  | Alert.shortfall _ _ _ => true
  | _ => false

/-- A plain one-off task used as the template for the concrete test inputs
(it matches the sample-task shape of the source). -/
def sampleTask : Task where
  id := "t"
  name := "t"
  mandatory := false
  critical := false
  category := "work"
  energy_required := 5
  duration_minutes := 30
  frequency := none
  deadline := none
  time_of_day := "any"
  days_available := []
  variants := []
  subtasks := []
  blockers := []

/-- An empty learned-history store. -/
def noLearned : Learned := fun _ => none

/-- A Monday at the epoch. -/
def mondayDate : JsDate where
  ms := 0
  dayIdx := 1

/-- A Sunday at the epoch. -/
def sundayDate : JsDate where
  ms := 0
  dayIdx := 0

/-- Monday three days after the epoch (3 × 86400000 ms). -/
def overdueDate : JsDate where
  ms := 259200000
  dayIdx := 1

/-- An ordinary morning: ok sleep, one hour available, energy 5. -/
def okMorning : Morning where
  sleep := "ok"
  hours := 1
  energy := 5

/-- A morning with 150 available minutes (2.5 h). -/
def within150Morning : Morning where
  sleep := "ok"
  hours := 2.5
  energy := 5

/-- A morning with zero hours available. -/
def zeroHoursMorning : Morning where
  sleep := "ok"
  hours := 0
  energy := 5

/-- A mandatory task whose nominal duration (100 min) exceeds the one-hour
budget of `okMorning` plus the 15-minute grace band. -/
def bigMandatoryTask : Task :=
  { sampleTask with mandatory := true, duration_minutes := 100 }

/-- A plain mandatory task. -/
def mandatoryMealTask : Task := { sampleTask with mandatory := true }

/-- A 120-minute variant. -/
def shortVariant : Variant where
  name := "short"
  duration_minutes := 120
  energy_required := 3

/-- A critical task: 200 min nominal, 120 min shortest variant. -/
def longCriticalTask : Task :=
  { sampleTask with critical := true, duration_minutes := 200, variants := [shortVariant] }

/-- A daily-frequency task. -/
def dailyTask : Task := { sampleTask with frequency := some "daily" }

/-- A Monday-only task. -/
def mondayOnlyTask : Task := { sampleTask with days_available := ["mon"] }

/-- A learned store holding for `"t"` a record last done at the epoch with
zero stored averages (as produced by a review without logged actuals). -/
def staleLearned : Learned := fun s =>
  if s = "t" then
    some { count := 1, avg_duration := 0, avg_energy := 0, last_done := some 0,
           completed_today := false }
  else none

/-! ### Helper lemmas -/

theorem jsRound_eq_floor (q : ℚ) : jsRound q = ⌊q + 1/2⌋ := by
  rw [jsRound, Rat.floor_def']
  exact Rat.floor_def.symm

theorem jsRound_mono {q r : ℚ} (h : q ≤ r) : jsRound q ≤ jsRound r := by
  rw [jsRound_eq_floor, jsRound_eq_floor]
  exact Int.floor_le_floor (by linarith)

theorem one_le_jsRound {q : ℚ} (h : 3/2 ≤ q) : 1 ≤ jsRound q := by
  rw [jsRound_eq_floor]
  exact Int.le_floor.mpr (by push_cast; linarith)

theorem getLowEnergyMultiplier_cases (e : ℚ) :
    getLowEnergyMultiplier e = 3 ∨ getLowEnergyMultiplier e = 2.5 ∨
      getLowEnergyMultiplier e = 2 ∨ getLowEnergyMultiplier e = 1.5 ∨
      getLowEnergyMultiplier e = 1 := by
  unfold getLowEnergyMultiplier
  split_ifs <;> simp

/-! ### C3: the points formula -/

/-- C3: for every task with `energyRequired ≥ 1` and `durationMinutes ≥ 1`
and every morning energy, `calcTaskPoints` returns
`base = max(1, round(energyRequired * durationMinutes / 10))`; the
multiplier is `3.0`, `2.5`, `2.0`, `1.5` for morning energy `1`–`4` and
`1.0` for any energy `≥ 5`; `points = round(base * multiplier)` when the
multiplier exceeds `1.0` and `base` otherwise; and `points ≥ 1` always. -/
theorem calcTaskPoints_spec (t : Task) (e : ℚ)
    (her : 1 ≤ t.energy_required) (hdm : 1 ≤ t.duration_minutes) :
    (calcTaskPoints t e).base =
      max 1 ((jsRound (t.energy_required * t.duration_minutes / 10) : ℚ))
    ∧ (calcTaskPoints t 1).multiplier = 3
    ∧ (calcTaskPoints t 2).multiplier = 2.5
    ∧ (calcTaskPoints t 3).multiplier = 2
    ∧ (calcTaskPoints t 4).multiplier = 1.5
    ∧ (5 ≤ e → (calcTaskPoints t e).multiplier = 1)
    ∧ (calcTaskPoints t e).pts =
        (if 1 < (calcTaskPoints t e).multiplier
         then ((jsRound ((calcTaskPoints t e).base * (calcTaskPoints t e).multiplier) : ℚ))
         else (calcTaskPoints t e).base)
    ∧ 1 ≤ (calcTaskPoints t e).pts := by
  have hbase : (calcTaskPoints t e).base =
      max 1 ((jsRound (t.energy_required * t.duration_minutes / 10) : ℚ)) := by
    simp [calcTaskPoints, BASE_POINTS_MIN]
  have hmul : ∀ x : ℚ, (calcTaskPoints t x).multiplier = getLowEnergyMultiplier x := by
    intro x; simp [calcTaskPoints]
  have hone : 1 ≤ (calcTaskPoints t e).base := by
    rw [hbase]; exact le_max_left _ _
  have hpts : (calcTaskPoints t e).pts =
      (if 1 < (calcTaskPoints t e).multiplier
       then ((jsRound ((calcTaskPoints t e).base * (calcTaskPoints t e).multiplier) : ℚ))
       else (calcTaskPoints t e).base) := by
    simp only [calcTaskPoints, decide_eq_true_eq, gt_iff_lt]
  refine ⟨hbase, ?_, ?_, ?_, ?_, ?_, hpts, ?_⟩
  · rw [hmul]; norm_num [getLowEnergyMultiplier]
  · rw [hmul]; norm_num [getLowEnergyMultiplier]
  · rw [hmul]; norm_num [getLowEnergyMultiplier]
  · rw [hmul]; norm_num [getLowEnergyMultiplier]
  · intro h5
    rw [hmul]
    unfold getLowEnergyMultiplier
    split_ifs with h1 h2 h3 h4 <;> first | rfl | linarith
  · rw [hpts]
    split_ifs with hlt
    · rw [hmul] at hlt
      have hge : (3/2 : ℚ) ≤ getLowEnergyMultiplier e := by
        rcases getLowEnergyMultiplier_cases e with h | h | h | h | h
        · rw [h]; norm_num
        · rw [h]; norm_num
        · rw [h]; norm_num
        · rw [h]; norm_num
        · rw [h] at hlt; exact absurd hlt (by norm_num)
      have hmm : (3/2 : ℚ) ≤ (calcTaskPoints t e).base * (calcTaskPoints t e).multiplier := by
        rw [hmul]
        have h0 : (0 : ℚ) ≤ (calcTaskPoints t e).base := by linarith
        calc (3/2 : ℚ) = 1 * (3/2) := by ring
        _ ≤ (calcTaskPoints t e).base * getLowEnergyMultiplier e :=
            mul_le_mul hone hge (by norm_num) h0
      have h1 := one_le_jsRound hmm
      exact_mod_cast h1
    · exact hone

/-- Witness for C3: the sample task (energy 5, 30 min) satisfies the
hypotheses and earns at least one point at morning energy 2. -/
theorem calcTaskPoints_spec_witness :
    (1 ≤ sampleTask.energy_required ∧ 1 ≤ sampleTask.duration_minutes)
    ∧ 1 ≤ (calcTaskPoints sampleTask 2).pts :=
  ⟨⟨by decide, by decide⟩,
    (calcTaskPoints_spec sampleTask 2 (by decide) (by decide)).2.2.2.2.2.2.2⟩

/-! ### C9: monotonicity of the points formula -/

/-- C9: for a fixed morning energy, `calcTaskPoints` is monotonically
non-decreasing in the product `energyRequired * durationMinutes`. -/
theorem calcTaskPoints_mono (t1 t2 : Task) (e : ℚ)
    (h : t1.energy_required * t1.duration_minutes ≤ t2.energy_required * t2.duration_minutes) :
    (calcTaskPoints t1 e).pts ≤ (calcTaskPoints t2 e).pts := by
  have hbase : (calcTaskPoints t1 e).base ≤ (calcTaskPoints t2 e).base := by
    simp only [calcTaskPoints]
    apply max_le_max le_rfl
    exact_mod_cast jsRound_mono (by linarith)
  have hmul1 : (calcTaskPoints t1 e).multiplier = getLowEnergyMultiplier e := by
    simp [calcTaskPoints]
  have hmul2 : (calcTaskPoints t2 e).multiplier = getLowEnergyMultiplier e := by
    simp [calcTaskPoints]
  have hpts : ∀ t : Task, (calcTaskPoints t e).pts =
      (if 1 < getLowEnergyMultiplier e
       then ((jsRound ((calcTaskPoints t e).base * getLowEnergyMultiplier e) : ℚ))
       else (calcTaskPoints t e).base) := by
    intro t
    simp only [calcTaskPoints, decide_eq_true_eq, gt_iff_lt]
  rw [hpts t1, hpts t2]
  split_ifs with hlt
  · have hmnn : (0 : ℚ) ≤ getLowEnergyMultiplier e := by linarith
    exact_mod_cast jsRound_mono (mul_le_mul_of_nonneg_right hbase hmnn)
  · exact hbase

/-- Witness for C9: a 5×30 task earns no more than a 5×100 task at the
same morning energy. -/
theorem calcTaskPoints_mono_witness :
    (sampleTask.energy_required * sampleTask.duration_minutes ≤
      bigMandatoryTask.energy_required * bigMandatoryTask.duration_minutes)
    ∧ (calcTaskPoints sampleTask 2).pts ≤ (calcTaskPoints bigMandatoryTask 2).pts :=
  ⟨by decide, calcTaskPoints_mono sampleTask bigMandatoryTask 2 (by decide)⟩

/-! ### C5: the variant selector under time pressure -/

theorem sortedVariants_sorted (vs : List Variant) :
    (List.insertionSort byDur vs).Sorted byDur :=
  List.sorted_insertionSort byDur vs

theorem mem_sortedVariants {vs : List Variant} {v : Variant} :
    v ∈ List.insertionSort byDur vs ↔ v ∈ vs :=
  List.mem_insertionSort byDur

/-- C5: with `timePressure = true` and a non-empty variant list,
`pickVariant` returns some variant; it is the one with the smallest
duration among those fitting `timeRemaining` when any fits, and the one
with the globally smallest duration otherwise. -/
theorem pickVariant_pressure (t : Task) (energy : ℚ) (sleep : String) (tr : ℚ)
    (hne : t.variants ≠ []) :
    ∃ v, pickVariant t energy sleep tr true = some v ∧ v ∈ t.variants ∧
      ((∃ w ∈ t.variants, w.duration_minutes ≤ tr) →
        v.duration_minutes ≤ tr ∧
          ∀ w ∈ t.variants, w.duration_minutes ≤ tr →
            v.duration_minutes ≤ w.duration_minutes) ∧
      ((∀ w ∈ t.variants, ¬ w.duration_minutes ≤ tr) →
        ∀ w ∈ t.variants, v.duration_minutes ≤ w.duration_minutes) := by
  have hie : t.variants.isEmpty = false := by
    cases hv : t.variants with
    | nil => exact absurd hv hne
    | cons a as => rfl
  have hsorted := sortedVariants_sorted t.variants
  cases hfit : (List.insertionSort byDur t.variants).filter
      (fun v => v.duration_minutes ≤ tr) with
  | nil =>
    have hnofit : ∀ w ∈ t.variants, ¬ w.duration_minutes ≤ tr := by
      intro w hw hwtr
      have hws : w ∈ List.insertionSort byDur t.variants := mem_sortedVariants.mpr hw
      have : w ∈ (List.insertionSort byDur t.variants).filter
          (fun v => v.duration_minutes ≤ tr) :=
        List.mem_filter.mpr ⟨hws, by simpa using hwtr⟩
      rw [hfit] at this
      exact absurd this (List.not_mem_nil w)
    cases hsort : List.insertionSort byDur t.variants with
    | nil =>
      exfalso
      apply hne
      have := List.length_insertionSort byDur t.variants
      rw [hsort] at this
      exact List.length_eq_zero.mp this.symm
    | cons v0 rest =>
      refine ⟨v0, ?_, ?_, ?_, ?_⟩
      · simp only [pickVariant, hie, Bool.false_eq_true, if_false, if_true]
        rw [hfit]
        rw [hsort]
        rfl
      · exact mem_sortedVariants.mp (hsort ▸ List.mem_cons_self v0 rest)
      · intro ⟨w, hw, hwtr⟩
        exact absurd hwtr (hnofit w hw)
      · intro _ w hw
        have hws : w ∈ List.insertionSort byDur t.variants := mem_sortedVariants.mpr hw
        rw [hsort] at hws hsorted
        rcases List.mem_cons.mp hws with rfl | hw'
        · exact le_rfl
        · exact List.rel_of_sorted_cons hsorted w hw'
  | cons v fits =>
    have hvmem : v ∈ (List.insertionSort byDur t.variants).filter
        (fun w => w.duration_minutes ≤ tr) := by
      rw [hfit]; exact List.mem_cons_self v fits
    have hv' := List.mem_filter.mp hvmem
    have hvtr : v.duration_minutes ≤ tr := by simpa using hv'.2
    have hsortedFit : ((List.insertionSort byDur t.variants).filter
        (fun w => w.duration_minutes ≤ tr)).Sorted byDur :=
      hsorted.filter _
    refine ⟨v, ?_, mem_sortedVariants.mp hv'.1, ?_, ?_⟩
    · simp only [pickVariant, hie, Bool.false_eq_true, if_false, if_true]
      rw [hfit]
    · intro _
      refine ⟨hvtr, ?_⟩
      intro w hw hwtr
      have hwf : w ∈ (List.insertionSort byDur t.variants).filter
          (fun x => x.duration_minutes ≤ tr) :=
        List.mem_filter.mpr ⟨mem_sortedVariants.mpr hw, by simpa using hwtr⟩
      rw [hfit] at hwf hsortedFit
      rcases List.mem_cons.mp hwf with rfl | hw'
      · exact le_rfl
      · exact List.rel_of_sorted_cons hsortedFit w hw'
    · intro hnone
      exact absurd hvtr (hnone v (mem_sortedVariants.mp hv'.1))

/-- Witness for C5 at a concrete input: the critical task with a single
120-minute variant and 150 minutes remaining. -/
theorem pickVariant_pressure_witness :
    longCriticalTask.variants ≠ [] ∧
      (∃ v, pickVariant longCriticalTask 5 "ok" 150 true = some v ∧
        v ∈ longCriticalTask.variants ∧
        ((∃ w ∈ longCriticalTask.variants, w.duration_minutes ≤ 150) →
          v.duration_minutes ≤ 150 ∧
            ∀ w ∈ longCriticalTask.variants, w.duration_minutes ≤ 150 →
              v.duration_minutes ≤ w.duration_minutes) ∧
        ((∀ w ∈ longCriticalTask.variants, ¬ w.duration_minutes ≤ 150) →
          ∀ w ∈ longCriticalTask.variants,
            v.duration_minutes ≤ w.duration_minutes)) :=
  ⟨by decide, pickVariant_pressure longCriticalTask 5 "ok" 150 (by decide)⟩

/-! ### C7: the learning updater -/

/-- C7: `applyReview` increments `count` on every review; the average
duration becomes `round(((avg * count) + actual) / (count + 1))` when an
actual was supplied and is unchanged otherwise; the same incremental mean
rounded to one decimal updates `avg_energy`; `last_done` becomes the
completion date and `completed_today` becomes true.  In particular a first
review logging 42 minutes yields count 1 and average 42, and reviews
logging 10 then 20 minutes yield count 2 and average 15. -/
theorem applyReview_spec (prev : Option LearnedRec) (eo : Option ℚ) (d : ℚ)
    (a : ℤ) (ha : a ≠ 0) :
    (∀ am : Option ℤ, (applyReview prev am eo d).count = (prevOf prev).count + 1)
    ∧ (applyReview prev (some a) eo d).avg_duration =
        (jsRound (((prevOf prev).avg_duration * ((prevOf prev).count : ℚ) + (a : ℚ)) /
          (((prevOf prev).count : ℚ) + 1)) : ℚ)
    ∧ (applyReview prev none eo d).avg_duration = (prevOf prev).avg_duration
    ∧ (∀ e : ℚ, e ≠ 0 → (applyReview prev (some a) (some e) d).avg_energy =
        (jsRound (((prevOf prev).avg_energy * ((prevOf prev).count : ℚ) + e) /
          (((prevOf prev).count : ℚ) + 1) * 10) : ℚ) / 10)
    ∧ (applyReview prev (some a) none d).avg_energy = (prevOf prev).avg_energy
    ∧ (∀ am : Option ℤ, (applyReview prev am eo d).last_done = some d)
    ∧ (∀ am : Option ℤ, (applyReview prev am eo d).completed_today = true)
    ∧ (applyReview none (some 42) none 0).count = 1
    ∧ (applyReview none (some 42) none 0).avg_duration = 42
    ∧ (applyReview (some (applyReview none (some 10) none 0)) (some 20) none 1).count = 2
    ∧ (applyReview (some (applyReview none (some 10) none 0)) (some 20) none 1).avg_duration
        = 15 := by
  refine ⟨fun _ => rfl, ?_, rfl, ?_, rfl, fun _ => rfl, fun _ => rfl,
    by decide, by decide, by decide, by decide⟩
  · simp [applyReview, ha]
  · intro e he
    simp [applyReview, he]

/-- Witness for C7: the two scenario facts, obtained by applying
`applyReview_spec` at `a = 42` from an empty record. -/
theorem applyReview_spec_witness :
    (applyReview none (some 42) none 0).count = 1
    ∧ (applyReview none (some 42) none 0).avg_duration = 42
    ∧ (applyReview (some (applyReview none (some 10) none 0)) (some 20) none 1).count = 2
    ∧ (applyReview (some (applyReview none (some 10) none 0)) (some 20) none 1).avg_duration
        = 15 := by
  have X := applyReview_spec none none 0 42 (by decide)
  exact ⟨X.2.2.2.2.2.2.2.1, X.2.2.2.2.2.2.2.2.1, X.2.2.2.2.2.2.2.2.2.1,
    X.2.2.2.2.2.2.2.2.2.2⟩

/-! ### C10: effective values fall back to nominal on zero averages -/

theorem scoreTask_some_fields {t : Task} {m : Morning} {l : Learned} {today : JsDate}
    {s : ScoredTask} (hs : scoreTask t m l today = some s) :
    s.task = t ∧ s.effectiveDuration = effDurOf l t ∧ s.effectiveEnergy = effEnergyOf l t
      ∧ daysExcluded t today = false := by
  unfold scoreTask at hs
  split at hs
  · exact absurd hs (by simp)
  · next hdays =>
    have hd : daysExcluded t today = false := by simpa using hdays
    split at hs
    · cases hs
      exact ⟨rfl, rfl, rfl, hd⟩
    · cases hs
      exact ⟨rfl, rfl, rfl, hd⟩

/-- C10: when a learned record exists but its stored average duration
(resp. energy) is `0` — as a review without logged actuals produces —
`scoreTask` falls back to the task's nominal `duration_minutes`
(resp. `energy_required`), and for any task with `duration_minutes ≥ 1`
the effective duration is never `0`. -/
theorem effectiveDuration_fallback (t : Task) (m : Morning) (l : Learned) (today : JsDate)
    (s : ScoredTask) (r : LearnedRec) (hs : scoreTask t m l today = some s) :
    (l t.id = some r → r.avg_duration = 0 → s.effectiveDuration = t.duration_minutes)
    ∧ (l t.id = some r → r.avg_energy = 0 → s.effectiveEnergy = t.energy_required)
    ∧ (1 ≤ t.duration_minutes → s.effectiveDuration ≠ 0)
    ∧ (∀ (eo : Option ℚ) (d : ℚ), (applyReview none none eo d).avg_duration = 0) := by
  obtain ⟨-, hdur, heng, -⟩ := scoreTask_some_fields hs
  refine ⟨?_, ?_, ?_, fun eo d => rfl⟩
  · intro hrec hzero
    rw [hdur, effDurOf, hrec]
    simp [jsOrQ, hzero]
  · intro hrec hzero
    rw [heng, effEnergyOf, hrec]
    simp [jsOrQ, hzero]
  · intro hge
    rw [hdur, effDurOf]
    cases hrec : l t.id with
    | none => simp [jsOrQ]; linarith
    | some r' =>
      simp only [Option.map_some', jsOrQ]
      split_ifs with h0
      · intro h; rw [h] at hge; linarith
      · exact h0

/-- Witness for C10 at a concrete input: the record stored for `"t"` in
`staleLearned` has zero averages, and the scored daily task falls back to
its nominal 30-minute duration. -/
theorem effectiveDuration_fallback_witness :
    (staleLearned "t" =
      some { count := 1, avg_duration := 0, avg_energy := 0, last_done := some 0,
             completed_today := false })
    ∧ ((mkScored dailyTask okMorning staleLearned overdueDate).effectiveDuration =
        dailyTask.duration_minutes) := by
  have X := effectiveDuration_fallback dailyTask okMorning staleLearned overdueDate
    (mkScored dailyTask okMorning staleLearned overdueDate)
    { count := 1, avg_duration := 0, avg_energy := 0, last_done := some 0,
      completed_today := false }
    (by decide)
  exact ⟨by decide, X.1 (by decide) (by decide)⟩

/-! ### Structural lemmas about the three allocation passes -/

theorem sumDur_cons (x : PlanItem) (xs : List PlanItem) :
    sumDur (x :: xs) = x.scheduledDuration + sumDur xs := by
  simp [sumDur]

theorem sumDur_append (xs ys : List PlanItem) :
    sumDur (xs ++ ys) = sumDur xs + sumDur ys := by
  simp [sumDur]

theorem mandatoryPass_mem_scored (m : Morning) (a : ℚ) (ts : List ScoredTask) :
    ∀ (u : ℚ) (s : ScoredTask), s ∈ ts →
      ∃ it ∈ (mandatoryPass m a ts u).1, it.scored = s ∧ it.pinned = true := by
  induction ts with
  | nil => intro u s h; simp at h
  | cons s' rest ih =>
    intro u s h
    simp only [mandatoryPass]
    rcases List.mem_cons.mp h with rfl | hmem
    · exact ⟨_, List.mem_cons_self _ _, rfl, rfl⟩
    · obtain ⟨it, hit, h1, h2⟩ := ih _ s hmem
      exact ⟨it, List.mem_cons_of_mem _ hit, h1, h2⟩

theorem mandatoryPass_scored_sub (m : Morning) (a : ℚ) (ts : List ScoredTask) :
    ∀ (u : ℚ) (it : PlanItem), it ∈ (mandatoryPass m a ts u).1 → it.scored ∈ ts := by
  induction ts with
  | nil => intro u it h; simp [mandatoryPass] at h
  | cons s' rest ih =>
    intro u it h
    simp only [mandatoryPass] at h
    rcases List.mem_cons.mp h with rfl | hmem
    · exact List.mem_cons_self _ _
    · exact List.mem_cons_of_mem _ (ih _ it hmem)

theorem mandatoryPass_all_pinned (m : Morning) (a : ℚ) (ts : List ScoredTask) :
    ∀ (u : ℚ) (it : PlanItem), it ∈ (mandatoryPass m a ts u).1 → it.pinned = true := by
  induction ts with
  | nil => intro u it h; simp [mandatoryPass] at h
  | cons s' rest ih =>
    intro u it h
    simp only [mandatoryPass] at h
    rcases List.mem_cons.mp h with rfl | hmem
    · rfl
    · exact ih _ it hmem

theorem mandatoryPass_snd (m : Morning) (a : ℚ) (ts : List ScoredTask) :
    ∀ u : ℚ, (mandatoryPass m a ts u).2 = u + sumDur (mandatoryPass m a ts u).1 := by
  induction ts with
  | nil => intro u; simp [mandatoryPass, sumDur]
  | cons s' rest ih =>
    intro u
    simp only [mandatoryPass]
    rw [ih, sumDur_cons]
    ring

theorem criticalPass_scored_sub (m : Morning) (a : ℚ) (tp : Bool) (ts : List ScoredTask) :
    ∀ (u : ℚ) (it : PlanItem), it ∈ (criticalPass m a tp ts u).1 → it.scored ∈ ts := by
  induction ts with
  | nil => intro u it h; simp [criticalPass] at h
  | cons s' rest ih =>
    intro u it h
    simp only [criticalPass] at h
    split at h
    · rcases List.mem_cons.mp h with rfl | hmem
      · exact List.mem_cons_self _ _
      · exact List.mem_cons_of_mem _ (ih _ it hmem)
    · exact List.mem_cons_of_mem _ (ih _ it h)

theorem criticalPass_none_pinned (m : Morning) (a : ℚ) (tp : Bool) (ts : List ScoredTask) :
    ∀ (u : ℚ) (it : PlanItem), it ∈ (criticalPass m a tp ts u).1 → it.pinned = false := by
  induction ts with
  | nil => intro u it h; simp [criticalPass] at h
  | cons s' rest ih =>
    intro u it h
    simp only [criticalPass] at h
    split at h
    · rcases List.mem_cons.mp h with rfl | hmem
      · rfl
      · exact ih _ it hmem
    · exact ih _ it h

theorem criticalPass_snd (m : Morning) (a : ℚ) (tp : Bool) (ts : List ScoredTask) :
    ∀ u : ℚ, (criticalPass m a tp ts u).2 = u + sumDur (criticalPass m a tp ts u).1 := by
  induction ts with
  | nil => intro u; simp [criticalPass, sumDur]
  | cons s' rest ih =>
    intro u
    simp only [criticalPass]
    split
    · rw [ih, sumDur_cons]; ring
    · rw [ih]

theorem criticalPass_snd_le (m : Morning) (a : ℚ) (tp : Bool) (ts : List ScoredTask) :
    ∀ u : ℚ, (criticalPass m a tp ts u).2 ≤ max u (a + 15) := by
  induction ts with
  | nil => intro u; simp [criticalPass]
  | cons s' rest ih =>
    intro u
    simp only [criticalPass]
    split
    · next hguard =>
      refine le_trans (ih _) ?_
      rw [max_eq_right hguard]
      exact le_max_right _ _
    · exact ih u

theorem normalPass_scored_sub (m : Morning) (a : ℚ) (ts : List ScoredTask) :
    ∀ (u : ℚ) (it : PlanItem), it ∈ (normalPass m a ts u).1 → it.scored ∈ ts := by
  induction ts with
  | nil => intro u it h; simp [normalPass] at h
  | cons s' rest ih =>
    intro u it h
    simp only [normalPass] at h
    split at h
    · simp at h
    · split at h
      · rcases List.mem_cons.mp h with rfl | hmem
        · exact List.mem_cons_self _ _
        · exact List.mem_cons_of_mem _ (ih _ it hmem)
      · exact List.mem_cons_of_mem _ (ih _ it h)

theorem normalPass_none_pinned (m : Morning) (a : ℚ) (ts : List ScoredTask) :
    ∀ (u : ℚ) (it : PlanItem), it ∈ (normalPass m a ts u).1 → it.pinned = false := by
  induction ts with
  | nil => intro u it h; simp [normalPass] at h
  | cons s' rest ih =>
    intro u it h
    simp only [normalPass] at h
    split at h
    · simp at h
    · split at h
      · rcases List.mem_cons.mp h with rfl | hmem
        · rfl
        · exact ih _ it hmem
      · exact ih _ it h

theorem normalPass_snd (m : Morning) (a : ℚ) (ts : List ScoredTask) :
    ∀ u : ℚ, (normalPass m a ts u).2 = u + sumDur (normalPass m a ts u).1 := by
  induction ts with
  | nil => intro u; simp [normalPass, sumDur]
  | cons s' rest ih =>
    intro u
    simp only [normalPass]
    split
    · simp [sumDur]
    · split
      · rw [ih, sumDur_cons]; ring
      · rw [ih]

theorem normalPass_snd_le (m : Morning) (a : ℚ) (ts : List ScoredTask) :
    ∀ u : ℚ, (normalPass m a ts u).2 ≤ max u a := by
  induction ts with
  | nil => intro u; simp [normalPass]
  | cons s' rest ih =>
    intro u
    simp only [normalPass]
    split
    · exact le_max_left _ _
    · split
      · next hguard =>
        refine le_trans (ih _) ?_
        rw [max_eq_right hguard]
        exact le_max_right _ _
      · exact ih u

/-! ### Membership chains from plan entries back to `scoredTasks` -/

theorem mandatoryTier_sub {tasks : List Task} {m : Morning} {l : Learned} {today : JsDate}
    {s : ScoredTask} (h : s ∈ mandatoryTier tasks m l today) :
    s ∈ scoredTasks tasks m l today :=
  (List.mem_filter.mp ((List.mem_insertionSort byScore).mp h)).1

theorem criticalTier_sub {tasks : List Task} {m : Morning} {l : Learned} {today : JsDate}
    {s : ScoredTask} (h : s ∈ criticalTier tasks m l today) :
    s ∈ scoredTasks tasks m l today :=
  (List.mem_filter.mp ((List.mem_insertionSort byScore).mp h)).1

theorem normalTier_sub {tasks : List Task} {m : Morning} {l : Learned} {today : JsDate}
    {s : ScoredTask} (h : s ∈ normalTier tasks m l today) :
    s ∈ scoredTasks tasks m l today :=
  (List.mem_filter.mp ((List.mem_insertionSort byScore).mp h)).1

theorem scoredTasks_char {tasks : List Task} {m : Morning} {l : Learned} {today : JsDate}
    {s : ScoredTask} (h : s ∈ scoredTasks tasks m l today) :
    ∃ t ∈ tasks, scoreTask t m l today = some s := by
  simp only [scoredTasks, List.mem_filter, List.mem_filterMap] at h
  obtain ⟨⟨t, ht, hst⟩, -⟩ := h
  exact ⟨t, ht, hst⟩

theorem plan_scored_mem (tasks : List Task) (m : Morning) (l : Learned) (today : JsDate) :
    ∀ it ∈ (buildDayPlan tasks m l today).plan, it.scored ∈ scoredTasks tasks m l today := by
  intro it hit
  have hplan : (buildDayPlan tasks m l today).plan =
      mandatoryItems tasks m l today ++ criticalItems tasks m l today ++
        normalItems tasks m l today := rfl
  rw [hplan] at hit
  rcases List.mem_append.mp hit with h12 | h3
  · rcases List.mem_append.mp h12 with h1 | h2
    · exact mandatoryTier_sub (mandatoryPass_scored_sub _ _ _ _ it h1)
    · exact criticalTier_sub (criticalPass_scored_sub _ _ _ _ _ it h2)
  · exact normalTier_sub (normalPass_scored_sub _ _ _ _ it h3)

/-! ### C2: mandatory tasks are always planned and pinned -/

/-- C2: every mandatory task that passes the weekday filter and is not
blocked appears in the plan flagged `pinned`, for every morning context —
in particular regardless of `availableMinutes` (the statement places no
constraint on `m.hours`, so it covers zero and negative budgets). -/
theorem buildDayPlan_mandatory_pinned (tasks : List Task) (m : Morning) (l : Learned)
    (today : JsDate) (t : Task) (ht : t ∈ tasks) (hm : t.mandatory = true)
    (hd : daysExcluded t today = false) (hb : blockedChk l t = false) :
    ∃ it ∈ (buildDayPlan tasks m l today).plan, it.scored.task = t ∧ it.pinned = true := by
  have hscore : scoreTask t m l today = some (mkScored t m l today) := by
    simp [scoreTask, hd, hb]
  have hsmem : mkScored t m l today ∈ scoredTasks tasks m l today := by
    apply List.mem_filter.mpr
    refine ⟨List.mem_filterMap.mpr ⟨t, ht, hscore⟩, ?_⟩
    simp [mkScored]
  have htier : mkScored t m l today ∈ mandatoryTier tasks m l today := by
    apply (List.mem_insertionSort byScore).mpr
    apply List.mem_filter.mpr
    exact ⟨hsmem, by simp [mkScored, hm]⟩
  obtain ⟨it, hit, hsc, hpin⟩ :=
    mandatoryPass_mem_scored m (availMinutes m) (mandatoryTier tasks m l today) 0
      (mkScored t m l today) htier
  refine ⟨it, ?_, ?_, hpin⟩
  · exact List.mem_append_left _ (List.mem_append_left _ hit)
  · rw [hsc]; rfl

/-- Witness for C2: a mandatory task on a zero-hour morning is still
planned and pinned. -/
theorem buildDayPlan_mandatory_pinned_witness :
    ∃ it ∈ (buildDayPlan [mandatoryMealTask] zeroHoursMorning noLearned mondayDate).plan,
      it.scored.task = mandatoryMealTask ∧ it.pinned = true :=
  buildDayPlan_mandatory_pinned [mandatoryMealTask] zeroHoursMorning noLearned mondayDate
    mandatoryMealTask (by decide) (by decide) (by decide) (by decide)

/-! ### C8: tasks outside today's weekday vanish entirely -/

/-- C8: a task whose non-empty `days_available` excludes today's weekday is
scored `null`, appears in no plan entry, and is not in the blocked list. -/
theorem scoreTask_days_excluded (tasks : List Task) (m : Morning) (l : Learned)
    (today : JsDate) (t : Task) (hne : t.days_available ≠ [])
    (hnot : dayNameOf today ∉ t.days_available) :
    scoreTask t m l today = none
    ∧ (∀ it ∈ (buildDayPlan tasks m l today).plan, it.scored.task ≠ t)
    ∧ t ∉ (buildDayPlan tasks m l today).blocked := by
  have hex : daysExcluded t today = true := by
    simp [daysExcluded, List.isEmpty_iff, hne, hnot]
  have hnone : scoreTask t m l today = none := by
    simp [scoreTask, hex]
  refine ⟨hnone, ?_, ?_⟩
  · intro it hit hteq
    obtain ⟨t', ht', hst'⟩ := scoredTasks_char (plan_scored_mem tasks m l today it hit)
    obtain ⟨htask, -, -, hdays⟩ := scoreTask_some_fields hst'
    have : t' = t := by rw [← htask, hteq]
    rw [this] at hdays
    rw [hdays] at hex
    exact Bool.false_ne_true hex
  · intro hmem
    have hb : (buildDayPlan tasks m l today).blocked = blockedOf tasks m l today := rfl
    rw [hb] at hmem
    have := (List.mem_filter.mp hmem).2
    rw [hnone] at this
    exact Bool.false_ne_true this

/-- Witness for C8: a Monday-only task on a Sunday. -/
theorem scoreTask_days_excluded_witness :
    scoreTask mondayOnlyTask okMorning noLearned sundayDate = none
    ∧ (∀ it ∈ (buildDayPlan [mondayOnlyTask] okMorning noLearned sundayDate).plan,
        it.scored.task ≠ mondayOnlyTask)
    ∧ mondayOnlyTask ∉ (buildDayPlan [mondayOnlyTask] okMorning noLearned sundayDate).blocked :=
  scoreTask_days_excluded [mondayOnlyTask] okMorning noLearned sundayDate mondayOnlyTask
    (by decide) (by decide)

/-! ### C1: the 15-minute grace bound -/

/-- C1 counterexample: a single 100-minute mandatory task against a
60-minute budget is scheduled in full, so the plan's total scheduled
duration (100) exceeds `availableMinutes + 15` (75): the claimed bound
fails when the mandatory pass alone overruns the budget. -/
theorem grace_bound_counterexample :
    ¬ (sumDur (buildDayPlan [bigMandatoryTask] okMorning noLearned mondayDate).plan ≤
       (buildDayPlan [bigMandatoryTask] okMorning noLearned mondayDate).availableMinutes
         + 15) := by
  decide

/-- C1 (amended): the plan's total scheduled duration never exceeds the
larger of `availableMinutes + 15` and the total scheduled duration of the
pinned (mandatory) entries; in particular the claimed
`availableMinutes + 15` bound holds whenever the mandatory pass itself
fits in that budget. -/
theorem buildDayPlan_grace_bound (tasks : List Task) (m : Morning) (l : Learned)
    (today : JsDate) :
    sumDur (buildDayPlan tasks m l today).plan ≤
      max ((buildDayPlan tasks m l today).availableMinutes + 15)
        (sumDur (((buildDayPlan tasks m l today).plan).filter (·.pinned))) := by
  have hM : usedAfterMandatory tasks m l today = sumDur (mandatoryItems tasks m l today) := by
    rw [usedAfterMandatory, mandatoryPass_snd]
    ring_nf
    rfl
  have hC : usedAfterCritical tasks m l today =
      usedAfterMandatory tasks m l today + sumDur (criticalItems tasks m l today) := by
    rw [usedAfterCritical, criticalPass_snd]
    rfl
  have hN : minutesUsedOf tasks m l today =
      usedAfterCritical tasks m l today + sumDur (normalItems tasks m l today) := by
    rw [minutesUsedOf, normalPass_snd]
    rfl
  have hCle : usedAfterCritical tasks m l today ≤
      max (usedAfterMandatory tasks m l today) (availMinutes m + 15) :=
    criticalPass_snd_le _ _ _ _ _
  have hNle : minutesUsedOf tasks m l today ≤
      max (usedAfterCritical tasks m l today) (availMinutes m) :=
    normalPass_snd_le _ _ _ _
  have hplan : (buildDayPlan tasks m l today).plan =
      mandatoryItems tasks m l today ++ criticalItems tasks m l today ++
        normalItems tasks m l today := rfl
  have htotal : sumDur (buildDayPlan tasks m l today).plan = minutesUsedOf tasks m l today := by
    rw [hplan, sumDur_append, sumDur_append, hN, hC, hM]
  have hfilter : ((buildDayPlan tasks m l today).plan).filter (·.pinned) =
      mandatoryItems tasks m l today := by
    rw [hplan, List.filter_append, List.filter_append]
    rw [List.filter_eq_self.mpr (fun it hit => by
      simpa using mandatoryPass_all_pinned m (availMinutes m) _ 0 it hit)]
    rw [List.filter_eq_nil.mpr (fun it hit => by
      simpa using criticalPass_none_pinned m (availMinutes m) _ _ _ it hit)]
    rw [List.filter_eq_nil.mpr (fun it hit => by
      simpa using normalPass_none_pinned m (availMinutes m) _ _ it hit)]
    simp
  have havail : (buildDayPlan tasks m l today).availableMinutes = availMinutes m := rfl
  rw [htotal, hfilter, havail, ← hM]
  refine le_trans hNle (max_le ?_ ?_)
  · refine le_trans hCle (max_le ?_ ?_)
    · exact le_max_right _ _
    · exact le_max_left _ _
  · exact le_trans (by linarith) (le_max_left (availMinutes m + 15) _)

/-! ### Alert bookkeeping lemmas -/

theorem mem_overdueAlertsOf {tasks : List Task} {m : Morning} {l : Learned} {today : JsDate}
    {a : Alert} (h : a ∈ overdueAlertsOf tasks m l today) : a = Alert.overduePromoted := by
  revert h
  unfold overdueAlertsOf
  split
  · intro h; simp at h
  · intro h; simpa using h

theorem mem_lowAlertsOf {m : Morning} {a : Alert} (h : a ∈ lowAlertsOf m) :
    a = Alert.lowEnergy := by
  revert h
  unfold lowAlertsOf
  split
  · intro h; simpa using h
  · intro h; simp at h

theorem mem_critAlertsOf {tasks : List Task} {m : Morning} {l : Learned} {today : JsDate}
    {a : Alert} (h : a ∈ critAlertsOf tasks m l today) :
    isTimeTight a = true ∨ isShortfallAlert a = true := by
  revert h
  unfold critAlertsOf
  dsimp only
  split_ifs
  · intro h
    rw [List.mem_singleton] at h
    subst h
    exact Or.inl rfl
  · intro h
    rw [List.mem_singleton] at h
    subst h
    exact Or.inr rfl
  · intro h; simp at h

theorem countP_overdueAlertsOf_timeTight (tasks : List Task) (m : Morning) (l : Learned)
    (today : JsDate) : (overdueAlertsOf tasks m l today).countP isTimeTight = 0 := by
  unfold overdueAlertsOf
  split <;> rfl

theorem countP_overdueAlertsOf_shortfall (tasks : List Task) (m : Morning) (l : Learned)
    (today : JsDate) : (overdueAlertsOf tasks m l today).countP isShortfallAlert = 0 := by
  unfold overdueAlertsOf
  split <;> rfl

theorem countP_lowAlertsOf_timeTight (m : Morning) :
    (lowAlertsOf m).countP isTimeTight = 0 := by
  unfold lowAlertsOf
  split <;> rfl

theorem countP_lowAlertsOf_shortfall (m : Morning) :
    (lowAlertsOf m).countP isShortfallAlert = 0 := by
  unfold lowAlertsOf
  split <;> rfl

/-! ### C4: the two-pass time-pressure alerts -/

/-- C4: time pressure holds exactly when the critical tasks' summed
effective durations exceed the remaining budget after the mandatory pass;
under pressure exactly one alert is emitted — the warning-severity
time-tight alert when the compressed total fits, otherwise the
error-severity alert naming the rounded shortfall in minutes — and no such
alert is emitted without pressure.  The 200-nominal/120-compressed/
150-remaining scenario produces exactly the warning alert. -/
theorem critical_pressure_alerts (tasks : List Task) (m : Morning) (l : Learned)
    (today : JsDate) :
    ((buildDayPlan tasks m l today).alerts.countP isTimeTight =
      if critNormalSum tasks m l today > remainingForCritical tasks m l today ∧
          critCompSum tasks m l today ≤ remainingForCritical tasks m l today
       then 1 else 0)
    ∧ ((buildDayPlan tasks m l today).alerts.countP isShortfallAlert =
      if critNormalSum tasks m l today > remainingForCritical tasks m l today ∧
          ¬ critCompSum tasks m l today ≤ remainingForCritical tasks m l today
       then 1 else 0)
    ∧ (Alert.timeTight ∈ (buildDayPlan tasks m l today).alerts ↔
        (critNormalSum tasks m l today > remainingForCritical tasks m l today ∧
          critCompSum tasks m l today ≤ remainingForCritical tasks m l today))
    ∧ (Alert.shortfall
        (jsRound (critCompSum tasks m l today - remainingForCritical tasks m l today))
        ((jsRound (critCompSum tasks m l today / 60 * 10) : ℚ) / 10)
        ((jsRound (remainingForCritical tasks m l today / 60 * 10) : ℚ) / 10)
          ∈ (buildDayPlan tasks m l today).alerts ↔
        (critNormalSum tasks m l today > remainingForCritical tasks m l today ∧
          ¬ critCompSum tasks m l today ≤ remainingForCritical tasks m l today))
    ∧ severityOf Alert.timeTight = "warning"
    ∧ (∀ (s : ℤ) (x y : ℚ), severityOf (Alert.shortfall s x y) = "error")
    ∧ critNormalSum [longCriticalTask] within150Morning noLearned mondayDate = 200
    ∧ critCompSum [longCriticalTask] within150Morning noLearned mondayDate = 120
    ∧ remainingForCritical [longCriticalTask] within150Morning noLearned mondayDate = 150
    ∧ (buildDayPlan [longCriticalTask] within150Morning noLearned mondayDate).alerts
        = [Alert.timeTight] := by
  have halerts : (buildDayPlan tasks m l today).alerts =
      critAlertsOf tasks m l today ++ overdueAlertsOf tasks m l today ++ lowAlertsOf m := rfl
  have hcount : ∀ p : Alert → Bool,
      (overdueAlertsOf tasks m l today).countP p = 0 → (lowAlertsOf m).countP p = 0 →
      (buildDayPlan tasks m l today).alerts.countP p =
        (critAlertsOf tasks m l today).countP p := by
    intro p h1 h2
    rw [halerts, List.countP_append, List.countP_append, h1, h2]
    simp
  have hmemIff : ∀ a : Alert, a ≠ Alert.overduePromoted → a ≠ Alert.lowEnergy →
      (a ∈ (buildDayPlan tasks m l today).alerts ↔ a ∈ critAlertsOf tasks m l today) := by
    intro a hno hnl
    rw [halerts]
    constructor
    · intro h
      rcases List.mem_append.mp h with h12 | h3
      · rcases List.mem_append.mp h12 with h1 | h2
        · exact h1
        · exact absurd (mem_overdueAlertsOf h2) hno
      · exact absurd (mem_lowAlertsOf h3) hnl
    · intro h
      exact List.mem_append_left _ (List.mem_append_left _ h)
  by_cases h1 : critNormalSum tasks m l today > remainingForCritical tasks m l today
  · by_cases h2 : critCompSum tasks m l today ≤ remainingForCritical tasks m l today
    · have hcrit : critAlertsOf tasks m l today = [Alert.timeTight] := by
        unfold critAlertsOf
        rw [if_pos h1, if_pos h2]
      refine ⟨?_, ?_, ?_, ?_, rfl, fun s x y => rfl, by decide, by decide, by decide, by decide⟩
      · rw [hcount isTimeTight (countP_overdueAlertsOf_timeTight _ _ _ _)
          (countP_lowAlertsOf_timeTight _), hcrit, if_pos ⟨h1, h2⟩]
        rfl
      · rw [hcount isShortfallAlert (countP_overdueAlertsOf_shortfall _ _ _ _)
          (countP_lowAlertsOf_shortfall _), hcrit, if_neg (fun h => h.2 h2)]
        rfl
      · rw [hmemIff _ (by simp) (by simp), hcrit]
        simp [h1, h2]
      · rw [hmemIff _ (by simp) (by simp), hcrit]
        simp [h2]
    · have hcrit : critAlertsOf tasks m l today =
          [Alert.shortfall
            (jsRound (critCompSum tasks m l today - remainingForCritical tasks m l today))
            ((jsRound (critCompSum tasks m l today / 60 * 10) : ℚ) / 10)
            ((jsRound (remainingForCritical tasks m l today / 60 * 10) : ℚ) / 10)] := by
        unfold critAlertsOf
        rw [if_pos h1, if_neg h2]
      refine ⟨?_, ?_, ?_, ?_, rfl, fun s x y => rfl, by decide, by decide, by decide, by decide⟩
      · rw [hcount isTimeTight (countP_overdueAlertsOf_timeTight _ _ _ _)
          (countP_lowAlertsOf_timeTight _), hcrit, if_neg (fun h => h2 h.2)]
        rfl
      · rw [hcount isShortfallAlert (countP_overdueAlertsOf_shortfall _ _ _ _)
          (countP_lowAlertsOf_shortfall _), hcrit, if_pos ⟨h1, h2⟩]
        rfl
      · rw [hmemIff _ (by simp) (by simp), hcrit]
        simp [h2]
      · rw [hmemIff _ (by simp) (by simp), hcrit]
        simp [h1, h2]
  · have hcrit : critAlertsOf tasks m l today = [] := by
      unfold critAlertsOf
      rw [if_neg h1]
    refine ⟨?_, ?_, ?_, ?_, rfl, fun s x y => rfl, by decide, by decide, by decide, by decide⟩
    · rw [hcount isTimeTight (countP_overdueAlertsOf_timeTight _ _ _ _)
        (countP_lowAlertsOf_timeTight _), hcrit, if_neg (fun h => h1 h.1)]
      rfl
    · rw [hcount isShortfallAlert (countP_overdueAlertsOf_shortfall _ _ _ _)
        (countP_lowAlertsOf_shortfall _), hcrit, if_neg (fun h => h1 h.1)]
      rfl
    · rw [hmemIff _ (by simp) (by simp), hcrit]
      simp [h1]
    · rw [hmemIff _ (by simp) (by simp), hcrit]
      simp [h1]

/-! ### C6: the overdue-promotion and low-energy alerts -/

/-- C6 counterexample: at a concrete input a scored task has an overdue
bonus above 10, yet no info-severity overdue alert is appended — the
overdue alert the source pushes has severity `warning` (line 244), not
`info` as claimed. -/
theorem overdue_alert_severity_counterexample :
    (∃ s ∈ scoredTasks [dailyTask] okMorning staleLearned overdueDate, s.overduePts > 10)
    ∧ ∀ a ∈ (buildDayPlan [dailyTask] okMorning staleLearned overdueDate).alerts,
        ¬ (severityOf a = "info" ∧ a = Alert.overduePromoted) := by
  decide

/-- C6 (amended): `buildDayPlan` appends the overdue-promotion alert —
whose severity is `warning`, not `info` — exactly when some scored task's
overdue bonus exceeds 10, and appends the info-severity low-energy alert
exactly when the context energy is at most 3 or sleep is terrible. -/
theorem buildDayPlan_extra_alerts (tasks : List Task) (m : Morning) (l : Learned)
    (today : JsDate) :
    ((Alert.overduePromoted ∈ (buildDayPlan tasks m l today).alerts) ↔
      ∃ s ∈ scoredTasks tasks m l today, s.overduePts > 10)
    ∧ severityOf Alert.overduePromoted = "warning"
    ∧ ((Alert.lowEnergy ∈ (buildDayPlan tasks m l today).alerts) ↔
      (m.energy ≤ 3 ∨ m.sleep = "terrible"))
    ∧ severityOf Alert.lowEnergy = "info" := by
  have halerts : (buildDayPlan tasks m l today).alerts =
      critAlertsOf tasks m l today ++ overdueAlertsOf tasks m l today ++ lowAlertsOf m := rfl
  refine ⟨?_, rfl, ?_, rfl⟩
  · rw [halerts]
    constructor
    · intro h
      rcases List.mem_append.mp h with h12 | h3
      · rcases List.mem_append.mp h12 with hc | ho
        · rcases mem_critAlertsOf hc with h | h <;> simp [isTimeTight, isShortfallAlert] at h
        · revert ho
          unfold overdueAlertsOf
          split
          · intro ho; simp at ho
          · next hemp =>
            intro _
            have hne : (scoredTasks tasks m l today).filter (fun s => s.overduePts > 10)
                ≠ [] := by
              intro hnil
              rw [hnil] at hemp
              simp at hemp
            obtain ⟨x, hx⟩ := List.exists_mem_of_ne_nil _ hne
            have hx' := List.mem_filter.mp hx
            exact ⟨x, hx'.1, by simpa using hx'.2⟩
      · have := mem_lowAlertsOf h3
        simp at this
    · rintro ⟨s, hs, hgt⟩
      apply List.mem_append_left
      apply List.mem_append_right
      unfold overdueAlertsOf
      split
      · next hemp =>
        exfalso
        rw [List.isEmpty_iff, List.filter_eq_nil] at hemp
        exact absurd (by simpa using hgt) (by simpa using hemp s hs)
      · exact List.mem_singleton.mpr rfl
  · rw [halerts]
    constructor
    · intro h
      rcases List.mem_append.mp h with h12 | h3
      · rcases List.mem_append.mp h12 with hc | ho
        · rcases mem_critAlertsOf hc with h | h <;> simp [isTimeTight, isShortfallAlert] at h
        · have := mem_overdueAlertsOf ho
          simp at this
      · revert h3
        unfold lowAlertsOf
        split
        · next hcond => intro _; exact hcond
        · intro h3; simp at h3
    · intro hcond
      apply List.mem_append_right
      unfold lowAlertsOf
      rw [if_pos hcond]
      exact List.mem_singleton.mpr rfl

end Planner
